import Mathlib

/-!
Verification of the KUI (Key User Interface) matching core of cgdb,
a shallow embedding of `cgdb/lib/kui/src/kui.c`.

Key sequences are modelled as `List Int` of tokens with the C zero
terminator left implicit: indexing past the end of the list yields `0`,
exactly as reading the terminator cell of a zero-terminated `int` array.
The generic `std_list` container (linked list with iterators, not part of
the analysed sources) is modelled as a Lean `List` with iterators as
`Nat` indices: `begin = 0`, `end = length`, `next = (+1)`, and
`std_list_get_data` failing on the end iterator.
-/

/-- Index into a zero-terminated token sequence: positions past the end
read the terminator `0`, as in the C arrays. -/
def idx (s : List Int) (i : Nat) : Int :=
  s.getD i 0

/-- Embedding of `intlen` from kui.c: the index of the first zero, i.e. the
length of the zero-free prefix (for well-formed sequences, the length). -/
def intlen : List Int → Int
  | [] => 0
  | x :: xs => if x = 0 then 0 else intlen xs + 1

/-- Embedding of `intcmp` from kui.c: lexicographic comparison of two
zero-terminated token sequences, run to completion. An empty list stands
at its terminator, so its current token is `0`. -/
def intcmp : List Int → List Int → Int
  | [], two => if idx two 0 = 0 then 0 else -1
  | x :: xs, two =>
    let b := idx two 0
    if x = 0 ∧ b = 0 then 0
    else if x = 0 then -1
    else if b = 0 then 1
    else if x < b then -1
    else if x > b then 1
    else intcmp xs two.tail

/-- Embedding of `intncmp` from kui.c: lexicographic comparison restricted
to the first `n` positions (`while (pos < n)`), a zero in either argument
before `n` ending the comparison as in `intcmp`. -/
def intncmp : List Int → List Int → Nat → Int
  | _, _, 0 => 0
  | one, two, n + 1 =>
    let a := idx one 0
    let b := idx two 0
    if a = 0 ∧ b = 0 then 0
    else if a = 0 then -1
    else if b = 0 then 1
    else if a < b then -1
    else if a > b then 1
    else intncmp one.tail two.tail n

/-- Embedding of `enum kui_map_state` from kui.c. -/
inductive KuiMapState where
  | KUI_MAP_FOUND
  | KUI_MAP_STILL_LOOKING
  | KUI_MAP_NOT_FOUND
  | KUI_MAP_ERROR
deriving DecidableEq, Repr

/-- Embedding of `struct kui_map`: only the parsed (literal) key and value
sequences matter to the matcher; the original strings are carried verbatim
by the C code and never consulted by the matching algorithm. -/
structure KuiMap where
  literal_key : List Int
  literal_value : List Int
deriving DecidableEq, Repr

/-- Embedding of `kui_map_compare_callback` from kui.c: compare two maps by
their literal keys with `intcmp`. -/
def kui_map_compare_callback (a b : KuiMap) : Int :=
  intcmp a.literal_key b.literal_key

/-- Embedding of `struct kui_map_set`: the sorted map list, the cursor
iterator (a `Nat` index, `map_list.length` playing the role of the end
iterator), the match state, and the `is_found` / `map_iter_found` latch. -/
structure KuiMapSet where
  map_list : List KuiMap
  map_iter : Nat
  map_state : KuiMapState
  is_found : Bool
  map_iter_found : Option Nat
deriving DecidableEq, Repr

/-- Embedding of `kui_ms_reset_state` from kui.c: cursor to begin, state to
STILL_LOOKING, latch cleared. -/
def kui_ms_reset_state (ms : KuiMapSet) : KuiMapSet :=
  { ms with
    map_iter := 0
    map_state := .KUI_MAP_STILL_LOOKING
    is_found := false
    map_iter_found := none }

/-- Embedding of `kui_ms_finalize_state` from kui.c: when the latch is set,
promote the state to FOUND and restore the cursor to the latched iterator. -/
def kui_ms_finalize_state (ms : KuiMapSet) : KuiMapSet :=
  if ms.is_found then
    { ms with
      map_state := .KUI_MAP_FOUND
      map_iter := ms.map_iter_found.getD 0 }
  else ms

/-- Result of the candidate walk inside `kui_ms_update_state`: the loop
either breaks setting NOT_FOUND, breaks on a surviving candidate, or falls
off the end of the list. The index is the final value of `map_iter`. -/
inductive WalkResult where
  | notFound (i : Nat)
  | atEnd (i : Nat)
  | survive (i : Nat) (m : KuiMap)
deriving DecidableEq, Repr

/-- Embedding of the `for` loop of `kui_ms_update_state` (kui.c lines
574-603): walk the candidates from the cursor, breaking with NOT_FOUND when
the already-matched prefix is lost or the candidate token at `position`
exceeds the input key, breaking on a surviving candidate whose token at
`position` equals the key, and skipping otherwise. `i` is the index of the
head of the suffix being walked within the full map list. -/
def msWalk (anchor : List Int) (key : Int) (pos : Nat) :
    List KuiMap → Nat → WalkResult
  | [], i => .atEnd i
  | m :: rest, i =>
    let r := intncmp anchor m.literal_key pos
    if r ≠ 0 ∨ (r = 0 ∧ idx m.literal_key pos > key) then .notFound i
    else if r = 0 ∧ idx m.literal_key pos = key then .survive i m
    else msWalk anchor key pos rest (i + 1)

/-- Embedding of `kui_ms_update_state` from kui.c: validate the arguments,
fetch the anchor map at the cursor (`std_list_get_data` fails on the end
iterator), walk the candidates, then decide: NOT_FOUND on a loop break or
an exhausted list; STILL_LOOKING when the survivor is longer than
`position+1`; otherwise latch `is_found`/`map_iter_found` and promote to
FOUND exactly when the next map is absent or does not share the
`position+1`-token prefix. Errors (`return -1` in C) are `Except.error`. -/
def kui_ms_update_state (ms : KuiMapSet) (key : Int) (position : Int) :
    Except Unit KuiMapSet :=
  if position < 0 then .error ()
  else if key < 0 then .error ()
  else if ms.map_state ≠ .KUI_MAP_STILL_LOOKING then .error ()
  else
    match ms.map_list.get? ms.map_iter with
    | none => .error ()
    | some anchorMap =>
      let anchor := anchorMap.literal_key
      let pos := position.toNat
      match msWalk anchor key pos (ms.map_list.drop ms.map_iter) ms.map_iter with
      | .notFound i => .ok { ms with map_iter := i, map_state := .KUI_MAP_NOT_FOUND }
      | .atEnd i => .ok { ms with map_iter := i, map_state := .KUI_MAP_NOT_FOUND }
      | .survive i m =>
        let cur := m.literal_key
        if intlen cur ≠ pos + 1 then .ok { ms with map_iter := i }
        else
          let ms' := { ms with map_iter := i, is_found := true, map_iter_found := some i }
          match ms.map_list.get? (i + 1) with
          | none => .ok { ms' with map_state := .KUI_MAP_FOUND }
          | some nextMap =>
            if intncmp nextMap.literal_key cur (pos + 1) ≠ 0 then
              .ok { ms' with map_state := .KUI_MAP_FOUND }
            else .ok ms'

/-- Candidate walk following the spec's four-step rule word for word
(spec section 4.4): 1. prefix lost, NOT_FOUND; 2. candidate token greater,
NOT_FOUND; 3. equal token, survive still looking; 4. smaller token, skip. -/
def specWalk (A : List Int) (token : Int) (position : Nat) :
    List KuiMap → Nat → WalkResult
  | [], cursor => .atEnd cursor
  | C :: rest, cursor =>
    if intncmp A C.literal_key position ≠ 0 then .notFound cursor
    else if idx C.literal_key position > token then .notFound cursor
    else if idx C.literal_key position = token then .survive cursor C
    else specWalk A token position rest (cursor + 1)

/-- Update step following the words of the spec (section 4.4): walk the
cursor per the four-step rule; after the walk declare NOT_FOUND at
end-of-list, latch `is_found` and `found_cursor` exactly when the surviving
candidate's key length equals `position+1`, and promote to FOUND when no
following candidate shares the full `position+1`-prefix. -/
def updateSpec (ms : KuiMapSet) (token : Int) (position : Nat) : KuiMapSet :=
  match ms.map_list.get? ms.map_iter with
  | none => { ms with map_state := .KUI_MAP_NOT_FOUND }
  | some anchorMap =>
    match specWalk anchorMap.literal_key token position
        (ms.map_list.drop ms.map_iter) ms.map_iter with
    | .notFound c => { ms with map_iter := c, map_state := .KUI_MAP_NOT_FOUND }
    | .atEnd c => { ms with map_iter := c, map_state := .KUI_MAP_NOT_FOUND }
    | .survive c C =>
      if intlen C.literal_key = position + 1 then
        let ms' := { ms with map_iter := c, is_found := true, map_iter_found := some c }
        match ms.map_list.get? (c + 1) with
        | none => { ms' with map_state := .KUI_MAP_FOUND }
        | some nextMap =>
          if intncmp nextMap.literal_key C.literal_key (position + 1) ≠ 0 then
            { ms' with map_state := .KUI_MAP_FOUND }
          else ms'
      else { ms with map_iter := c }

/-- Sortedness of a map list by literal key, the invariant the register
operation maintains through `kui_map_compare_callback`. -/
def msSorted (l : List KuiMap) : Prop :=
  List.Pairwise (fun a b => kui_map_compare_callback a b < 0) l

instance (l : List KuiMap) : Decidable (msSorted l) := by
  unfold msSorted
  infer_instance

/-- Embedding of `kui_ms_deregister_map` from kui.c over the modelled
`std_list`: find the map whose literal key compares equal to the argument
(`std_list_find` returning the end iterator, `map_list.length`, when no
element matches), report "not present" (`-2`) when the found iterator
equals the begin iterator (index `0`), and otherwise remove the element.
Modelled from the spec: the C call site passes the raw key string where the
comparator expects a parsed map, so per spec sections 4.3 and 9 the
argument is taken here as the already-symbolized key sequence, wrapped as
the comparand map. The result pairs the C return code with the resulting
map set. -/
def kui_ms_deregister_map (ms : KuiMapSet) (key : List Int) : Int × KuiMapSet :=
  let comparand : KuiMap := { literal_key := key, literal_value := [] }
  let iter := (ms.map_list.findIdx?
    (fun m => kui_map_compare_callback m comparand = 0)).getD ms.map_list.length
  if iter = 0 then (-2, ms)
  else (0, { ms with map_list := ms.map_list.eraseIdx iter })

/-- Embedding of `struct kuictx`: the map-set list, the pushback buffer,
and the character source. Modelled from the spec (section 6): the abstract
source (`callback`/`fd`/`ms` in C) is a finite token stream; reading from
an exhausted stream yields `0`, the "no data within the timeout" result. -/
structure Kuictx where
  kui_map_set_list : List KuiMapSet
  buffer : List Int
  source : List Int
deriving DecidableEq, Repr

/-- Embedding of `kui_findchar` from kui.c: pop the head of the pushback
buffer when non-empty, otherwise read from the source. -/
def kui_findchar (ctx : Kuictx) : Int × Kuictx :=
  match ctx.buffer with
  | k :: rest => (k, { ctx with buffer := rest })
  | [] =>
    match ctx.source with
    | t :: rest => (t, { ctx with source := rest })
    | [] => (0, ctx)

/-- Embedding of `kui_update_each_list` from kui.c: feed the key and
position to every map set whose state is not NOT_FOUND, propagating the
first error. -/
def kui_update_each_list : List KuiMapSet → Int → Int → Except Unit (List KuiMapSet)
  | [], _, _ => .ok []
  | ms :: rest, key, position =>
    let step : Except Unit KuiMapSet :=
      if ms.map_state ≠ .KUI_MAP_NOT_FOUND then kui_ms_update_state ms key position
      else .ok ms
    match step with
    | .error e => .error e
    | .ok ms' =>
      match kui_update_each_list rest key position with
      | .error e => .error e
      | .ok rest' => .ok (ms' :: rest')

/-- Embedding of `kui_should_continue_looking` from kui.c: keep looking
while at least one map set is STILL_LOOKING. -/
def kui_should_continue_looking (sets : List KuiMapSet) : Bool :=
  sets.any (fun ms => ms.map_state = .KUI_MAP_STILL_LOOKING)

/-- Walker for `kui_was_map_found` from kui.c, scanning the map sets in
order and letting each FOUND set overwrite the accumulator, so the last
FOUND set wins; fetching the winning map fails on an invalid iterator. -/
def kui_was_map_found_go : List KuiMapSet → Option KuiMap → Except Unit (Option KuiMap)
  | [], acc => .ok acc
  | ms :: rest, acc =>
    if ms.map_state = .KUI_MAP_FOUND then
      match ms.map_list.get? ms.map_iter with
      | none => .error ()
      | some m => kui_was_map_found_go rest (some m)
    else kui_was_map_found_go rest acc

/-- Embedding of `kui_was_map_found` from kui.c: `none` when no map set
ended FOUND, otherwise the winning map. -/
def kui_was_map_found (sets : List KuiMapSet) : Except Unit (Option KuiMap) :=
  kui_was_map_found_go sets none

/-- Iteration core of the first pushback loop of `kui_update_buffer`
(kui.c lines 1170-1179), running `n` iterations of
`for (j = position; j >= i; --j) prepend(bufmax[j])`. -/
def prependLoopN (bufmax : Nat → Int) : Nat → Int → List Int → List Int
  | 0, _, buffer => buffer
  | n + 1, j, buffer => prependLoopN bufmax n (j - 1) (bufmax j.toNat :: buffer)

/-- Embedding of the first pushback loop of `kui_update_buffer`: prepend
`bufmax[j]` for `j` from `position` down to `i`, i.e. `(position + 1 - i)`
iterations when that count is positive. -/
def prependLoop (bufmax : Nat → Int) (i position : Int) (buffer : List Int) : List Int :=
  prependLoopN bufmax (position + 1 - i).toNat position buffer

/-- Iteration core of the value loop of `kui_update_buffer` (kui.c lines
1187-1196), running `n` iterations of
`for (i = length-1; i >= 0; --i) prepend(literal_value[i])`. -/
def prependValueLoopN (v : List Int) : Nat → Int → List Int → List Int
  | 0, _, buffer => buffer
  | n + 1, i, buffer => prependValueLoopN v n (i - 1) (idx v i.toNat :: buffer)

/-- Embedding of the value loop of `kui_update_buffer`: prepend the
literal value tokens in reverse, from index `length-1` down to `0`. -/
def prependValueLoop (v : List Int) (buffer : List Int) : List Int :=
  prependValueLoopN v (intlen v).toNat (intlen v - 1) buffer

/-- Embedding of `kui_update_buffer` from kui.c. With a map found, push
back `bufmax[intlen literal_key .. position]` and then the literal value in
reverse, leaving `*key` as the `0` set before the call; with no map found,
set `*key := bufmax[0]` (read even when `position = -1`, i.e. when nothing
was consumed and `bufmax[0]` is uninitialized stack memory) and push back
`bufmax[1 .. position]`. The C argument pair `the_map_found` /
`map_was_found` is collapsed into one `Option`, as `kui_findkey` always
passes them in agreement. -/
def kui_update_buffer (ctx : Kuictx) (the_map_found : Option KuiMap)
    (position : Int) (bufmax : Nat → Int) : Kuictx × Int :=
  match the_map_found with
  | none =>
    let key := bufmax 0
    let buffer := prependLoop bufmax 1 position ctx.buffer
    ({ ctx with buffer := buffer }, key)
  | some m =>
    let i : Int := intlen m.literal_key
    let buffer := prependLoop bufmax i position ctx.buffer
    let buffer := prependValueLoop m.literal_value buffer
    ({ ctx with buffer := buffer }, 0)

/-- Embedding of the main read loop of `kui_findkey` (kui.c lines
1245-1266): read a token (stopping on `0`), advance `position`, write
`bufmax[position]` (the C array write, unchecked against the 1024 bound,
modelled as a total function update), update every map set, and continue
while some set is STILL_LOOKING. The fuel is instrumentation only: the
caller passes one more than the number of available tokens, which the loop
can never exhaust since every iteration that does not break consumes a
token. -/
def kui_findkeyLoop : Nat → Kuictx → (Nat → Int) → Int →
    Except Unit (Kuictx × (Nat → Int) × Int)
  | 0, _, _, _ => .error ()
  | fuel + 1, ctx, bufmax, position =>
    let (key, ctx') := kui_findchar ctx
    if key = 0 then .ok (ctx', bufmax, position)
    else
      let position' := position + 1
      let bufmax' := fun n => if n = position'.toNat then key else bufmax n
      match kui_update_each_list ctx'.kui_map_set_list key position' with
      | .error e => .error e
      | .ok sets =>
        let ctx'' := { ctx' with kui_map_set_list := sets }
        if kui_should_continue_looking sets then
          kui_findkeyLoop fuel ctx'' bufmax' position'
        else .ok (ctx'', bufmax', position')

/-- Embedding of `kui_findkey` from kui.c: reset every map set, run the
read loop from `position = -1`, finalize every map set, determine the
winning map, and reconstitute the buffer. `bufmax0` is the arbitrary
initial content of the uninitialized stack array `bufmax`. The result is
`(key, was_map_found, position, ctx)`; `position` is the last index written
into `bufmax` (`-1` when nothing was consumed). -/
def kui_findkey (ctx0 : Kuictx) (bufmax0 : Nat → Int) :
    Except Unit (Int × Bool × Int × Kuictx) :=
  let ctx := { ctx0 with
    kui_map_set_list := ctx0.kui_map_set_list.map kui_ms_reset_state }
  match kui_findkeyLoop (ctx.buffer.length + ctx.source.length + 1) ctx bufmax0 (-1) with
  | .error e => .error e
  | .ok (ctx1, bufmax, position) =>
    let ctx2 := { ctx1 with
      kui_map_set_list := ctx1.kui_map_set_list.map kui_ms_finalize_state }
    match kui_was_map_found ctx2.kui_map_set_list with
    | .error e => .error e
    | .ok the_map_found =>
      let (ctx3, key) := kui_update_buffer ctx2 the_map_found position bufmax
      .ok (key, the_map_found.isSome, position, ctx3)

/-- Embedding of `kui_getkey` from kui.c: repeat `kui_findkey` while a map
was found. The fuel counts outer iterations; `none` means the loop is
still running when the fuel ends (in particular, `none` for every fuel is
non-termination). A `kui_findkey` error yields `-1` with no final context,
as the C code returns `-1` leaving the context mid-mutation. -/
def kui_getkey_fuel : Nat → Kuictx → (Nat → Int) → Option (Int × Option Kuictx)
  | 0, _, _ => none
  | fuel + 1, ctx, bufmax0 =>
    match kui_findkey ctx bufmax0 with
    | .error _ => some (-1, none)
    | .ok (key, was_map_found, _, ctx') =>
      if was_map_found then kui_getkey_fuel fuel ctx' bufmax0
      else some (key, some ctx')

/-- Apply a sequence of `(key, position)` update calls to a map set, a
call that returns an error (C `-1`) leaving the set unchanged, exactly as
`kui_ms_update_state` mutates nothing before its guards pass. -/
def msRunUpdates (ms : KuiMapSet) (steps : List (Int × Int)) : KuiMapSet :=
  steps.foldl (fun s kp =>
    match kui_ms_update_state s kp.1 kp.2 with
    | .ok s' => s'
    | .error _ => s) ms

/-- Contiguous slice `bufmax[lo .. lo+n-1]` of the pass buffer, in order:
the shape the pushback-reconstitution contract is stated in. -/
def bufSlice (bufmax : Nat → Int) (lo : Nat) : Nat → List Int
  | 0 => []
  | n + 1 => bufmax lo :: bufSlice bufmax (lo + 1) n

/-- Fresh map set over a given map list: cursor at begin, STILL_LOOKING,
latch clear — the state `kui_ms_create` plus registration leaves. -/
def freshSet (l : List KuiMap) : KuiMapSet :=
  { map_list := l
    map_iter := 0
    map_state := .KUI_MAP_STILL_LOOKING
    is_found := false
    map_iter_found := none }

/-- Scenario map set of spec section 8: `a -> X`, `abc -> Y` (tokens
`97 -> 88`, `[97,98,99] -> 89`), sorted by literal key. -/
def kuiMsScenario : KuiMapSet :=
  freshSet [⟨[97], [88]⟩, ⟨[97, 98, 99], [89]⟩]

/-- Context for the prefix-vs-extension scenario: the scenario map set over
input `ad` (tokens `97, 100`). -/
def kuiCtxScenario : Kuictx :=
  { kui_map_set_list := [kuiMsScenario], buffer := [], source := [97, 100] }

/-- Context with the single no-op map `a -> a` over input `a`. -/
def kuiCtxNoop : Kuictx :=
  { kui_map_set_list := [freshSet [⟨[97], [97]⟩]], buffer := [], source := [97] }

/-- The state `kui_findkey` reaches from `kuiCtxNoop`: the map matched and
its value was re-emitted into the pushback buffer, reproducing the very
input the pass consumed. -/
def kuiCtxNoopFix : Kuictx :=
  { kui_map_set_list := [{ map_list := [⟨[97], [97]⟩]
                           map_iter := 0
                           map_state := .KUI_MAP_FOUND
                           is_found := true
                           map_iter_found := some 0 }]
    buffer := [97]
    source := [] }

/-- Context whose single map has a 1025-token literal key, with a source
supplying those 1025 tokens: one pass stays STILL_LOOKING through all of
them. -/
def kuiCtxOverflow : Kuictx :=
  { kui_map_set_list := [freshSet [⟨List.replicate 1025 97, [98]⟩]]
    buffer := []
    source := List.replicate 1025 97 }

/-- Context whose source yields no data (`0`) on the very first read of
the pass. -/
def kuiCtxTimeout : Kuictx :=
  { kui_map_set_list := [freshSet [⟨[97], [98]⟩]], buffer := [], source := [] }

/-- The context state after the empty pass of `kuiCtxTimeout`: the map set
merely reset, nothing consumed. -/
def kuiCtxTimeoutAfter : Kuictx :=
  { kui_map_set_list := [freshSet [⟨[97], [98]⟩]], buffer := [], source := [] }

/-- Context holding one map set that contains no maps, over a non-empty
source. -/
def kuiCtxEmptySet : Kuictx :=
  { kui_map_set_list := [freshSet []], buffer := [], source := [100] }

/-- Map set with the single map `a -> b`, the deregister counterexample. -/
def kuiMs6 : KuiMapSet :=
  freshSet [⟨[97], [98]⟩]

/-- Map set with the single map `ab -> c`: one update on `a` leaves it
mid-candidate. -/
def kuiMs5 : KuiMapSet :=
  freshSet [⟨[97, 98], [99]⟩]

/-- Concrete context for the pushback witness. -/
def kuiCtxW : Kuictx :=
  { kui_map_set_list := [], buffer := [9], source := [] }

/-- Concrete pass-buffer content for the pushback witness. -/
def bufW (n : Nat) : Int :=
  (n : Int) + 5

/-- The single map of the overflow context: a 1025-token literal key. -/
def mapOv : KuiMap :=
  ⟨List.replicate 1025 97, [98]⟩

/-- The overflow map set while the scan is still looking. -/
def msOvSL : KuiMapSet :=
  freshSet [mapOv]

/-- The overflow map set once the 1025th token completed the key: latched
and FOUND. -/
def msOvFound : KuiMapSet :=
  { map_list := [mapOv]
    map_iter := 0
    map_state := .KUI_MAP_FOUND
    is_found := true
    map_iter_found := some 0 }

/-- The overflow context as the read loop sees it with `r` source tokens
left to consume. -/
def ctxOvMid (r : Nat) : Kuictx :=
  { kui_map_set_list := [msOvSL], buffer := [], source := List.replicate r 97 }

/-- The overflow context when the read loop stops: source drained, map
found. -/
def ctxOvEnd : Kuictx :=
  { kui_map_set_list := [msOvFound], buffer := [], source := [] }

/-- The overflow context `kui_findkey` returns: the map's value pushed
back, everything consumed. -/
def ctxOvAfter : Kuictx :=
  { kui_map_set_list := [msOvFound], buffer := [98], source := [] }

/-- C10: the bounded lexicographic compare with `n = 0` returns `0`
without inspecting any token, so the NOT_FOUND condition of the candidate
walk at `position = 0` collapses to the candidate-token-greater test: the
first update call of a pass can never reject a candidate on
already-matched-prefix grounds. -/
theorem intncmp_zero_positions_equal :
    (∀ a b : List Int, intncmp a b 0 = 0) ∧
    (∀ (a c : List Int) (key : Int),
      ((intncmp a c 0 ≠ 0 ∨ (intncmp a c 0 = 0 ∧ idx c 0 > key)) ↔ idx c 0 > key)) := by
  refine ⟨fun a b => rfl, fun a c key => ?_⟩
  simp [intncmp]

/-- C6 evaluation: on a map set whose only map has literal key `a`, the
deregister of that very key returns `-2` ("not present") and leaves the
map registered, because the code compares the found iterator against
`begin()` instead of `end()`. -/
theorem kui_ms_deregister_present_map_reports_not_present :
    (kuiMs6.map_list.any fun m => m.literal_key = [97]) = true ∧
    kui_ms_deregister_map kuiMs6 [97] = (-2, kuiMs6) := by
  exact ⟨rfl, rfl⟩

/-- C7 evaluation: with one empty map set and the raw token `100` waiting
in the source, `get_key` returns `-1` (the update call fails on the empty
list) instead of the raw token. -/
theorem kui_getkey_empty_map_set_errors :
    kuiCtxEmptySet.source = [100] ∧
    kui_getkey_fuel 1 kuiCtxEmptySet (fun _ => 0) = some (-1, none) := by
  exact ⟨rfl, rfl⟩

/-- C4 evaluation: when the very first source read of the pass yields no
data, `get_key` returns the uninitialized `bufmax[0]` cell (here the
arbitrary stack content `42`) instead of `0`. -/
theorem kui_getkey_timeout_returns_uninitialized :
    kui_getkey_fuel 1 kuiCtxTimeout (fun _ => 42) = some (42, some kuiCtxTimeoutAfter) ∧
    (42 : Int) ≠ 0 := by
  exact ⟨rfl, by decide⟩

/-- C5 counterexample: for the map set `{ab -> c}`, the update sequence
`[(97, 0)]` from the reset state followed by finalize leaves the state
STILL_LOOKING, which is neither FOUND nor NOT_FOUND. -/
theorem finalize_can_leave_still_looking :
    ¬ ((kui_ms_finalize_state (msRunUpdates (kui_ms_reset_state kuiMs5) [(97, 0)])).map_state
          = .KUI_MAP_FOUND ∨
       (kui_ms_finalize_state (msRunUpdates (kui_ms_reset_state kuiMs5) [(97, 0)])).map_state
          = .KUI_MAP_NOT_FOUND) := by
  decide

/-- A single `kui_findkey` pass from the no-op fixed point consumes the
buffered key, matches the `a -> a` map, and re-emits the identical key:
the context returns to the very same state with the map reported found. -/
theorem kui_findkey_noop_fixed_point (b : Nat → Int) :
    kui_findkey kuiCtxNoopFix b = .ok (0, true, 0, kuiCtxNoopFix) := rfl

/-- Every fuel bound runs out when `kui_getkey` starts from the no-op
fixed point: each pass reproduces it and reports a map found. -/
theorem kui_getkey_noop_fix_no_result (b : Nat → Int) (n : Nat) :
    kui_getkey_fuel n kuiCtxNoopFix b = none := by
  induction n with
  | zero => rfl
  | succ n ih =>
    simp only [kui_getkey_fuel, kui_findkey_noop_fixed_point]
    simpa using ih

/-- C2 evaluation: with the no-op map `a -> a` registered and input `a`,
`kui_getkey` never terminates — after the first pass the context is at the
no-op fixed point and every further pass reports a map found, so the outer
`do while (map_found)` loop runs forever (`none` at every fuel). -/
theorem kui_getkey_noop_map_diverges (b : Nat → Int) (n : Nat) :
    kui_getkey_fuel n kuiCtxNoop b = none := by
  cases n with
  | zero => rfl
  | succ n =>
    have h : kui_findkey kuiCtxNoop b = .ok (0, true, 0, kuiCtxNoopFix) := rfl
    simp only [kui_getkey_fuel, h]
    simpa using kui_getkey_noop_fix_no_result b n

/-- C9: with maps `a -> X` and `abc -> Y` registered and input `ad`,
successive `get_key` calls emit `X` (token 88) and then `d` (token 100):
the short match latches on `a`, the scan diverges on `d`, finalize
promotes `a -> X`, `X` is emitted by the second pass, and the pushed-back
`d` is emitted by the next call, leaving the buffer empty. -/
theorem kui_getkey_prefix_vs_extension_scenario (b : Nat → Int) :
    ∃ c1 c2,
      kui_getkey_fuel 2 kuiCtxScenario b = some (88, some c1) ∧
      kui_getkey_fuel 2 c1 b = some (100, some c2) ∧
      c2.buffer = [] := by
  exact ⟨_, _, rfl, rfl, rfl⟩

/-- The bounded compare of a sequence with itself is `0` at every bound. -/
theorem intncmp_self (n : Nat) : ∀ s : List Int, intncmp s s n = 0 := by
  induction n with
  | zero => intro s; rfl
  | succ n ih =>
    intro s
    by_cases h : idx s 0 = 0
    · simp [intncmp, h]
    · simp [intncmp, h, lt_self_iff_false]
      exact ih s.tail

/-- Indexing a replicated sequence inside its extent yields the token. -/
theorem idx_replicate (a : Int) : ∀ (n p : Nat), p < n → idx (List.replicate n a) p = a := by
  intro n
  induction n with
  | zero => intro p hp; omega
  | succ n ih =>
    intro p hp
    cases p with
    | zero => rfl
    | succ p =>
      have : idx (List.replicate (n + 1) a) (p + 1) = idx (List.replicate n a) p := rfl
      rw [this]
      exact ih p (by omega)

/-- The length primitive on a replicated nonzero token counts its extent. -/
theorem intlen_replicate : ∀ n : Nat, intlen (List.replicate n (97 : Int)) = n := by
  intro n
  induction n with
  | zero => rfl
  | succ n ih =>
    rw [List.replicate_succ]
    simp only [intlen]
    rw [if_neg (by norm_num), ih]
    push_cast
    ring

/-- In the middle of the overflow scan (positions `0..1023`) the single
1025-token candidate survives and the set is returned unchanged, still
looking. -/
theorem msOvSL_update_mid (p : Int) (h0 : 0 ≤ p) (h1 : p.toNat < 1024) :
    kui_ms_update_state msOvSL 97 p = .ok msOvSL := by
  have hidx : idx mapOv.literal_key p.toNat = 97 :=
    idx_replicate 97 1025 p.toNat (by omega)
  have hcmp : intncmp mapOv.literal_key mapOv.literal_key p.toNat = 0 :=
    intncmp_self p.toNat _
  have hwalk : msWalk mapOv.literal_key 97 p.toNat [mapOv] 0 = .survive 0 mapOv := by
    simp only [msWalk]
    rw [if_neg (by simp [hcmp, hidx]), if_pos ⟨hcmp, hidx⟩]
  have hlen : intlen mapOv.literal_key = 1025 := intlen_replicate 1025
  unfold kui_ms_update_state
  rw [if_neg (by omega), if_neg (by norm_num)]
  have hms : msOvSL.map_state = .KUI_MAP_STILL_LOOKING := rfl
  rw [if_neg (by simp [hms])]
  show (match msWalk mapOv.literal_key 97 p.toNat ([mapOv].drop 0) 0 with
    | .notFound i => Except.ok { msOvSL with map_iter := i, map_state := .KUI_MAP_NOT_FOUND }
    | .atEnd i => Except.ok { msOvSL with map_iter := i, map_state := .KUI_MAP_NOT_FOUND }
    | .survive i m =>
      if intlen m.literal_key ≠ p.toNat + 1 then Except.ok { msOvSL with map_iter := i }
      else
        let ms' := { msOvSL with map_iter := i, is_found := true, map_iter_found := some i }
        match [mapOv].get? (i + 1) with
        | none => Except.ok { ms' with map_state := .KUI_MAP_FOUND }
        | some nextMap =>
          if intncmp nextMap.literal_key m.literal_key (p.toNat + 1) ≠ 0 then
            Except.ok { ms' with map_state := .KUI_MAP_FOUND }
          else Except.ok ms') = Except.ok msOvSL
  rw [List.drop_zero, hwalk]
  have hcond : intlen mapOv.literal_key ≠ (p.toNat : Int) + 1 := by rw [hlen]; omega
  simp only [hcond]
  have hc2 : ¬ (intlen mapOv.literal_key = p ⊔ 0 + 1) := by
    rw [hlen, sup_eq_left.mpr h0]
    omega
  simp [hcond, hc2]
  rfl

/-- The 1025th token of the overflow scan (position 1024) completes the
candidate: the set latches and reports FOUND. -/
theorem msOvSL_update_last (p : Int) (h0 : 0 ≤ p) (hp : p.toNat = 1024) :
    kui_ms_update_state msOvSL 97 p = .ok msOvFound := by
  have hidx : idx mapOv.literal_key p.toNat = 97 :=
    idx_replicate 97 1025 p.toNat (by omega)
  have hcmp : intncmp mapOv.literal_key mapOv.literal_key p.toNat = 0 :=
    intncmp_self p.toNat _
  have hwalk : msWalk mapOv.literal_key 97 p.toNat [mapOv] 0 = .survive 0 mapOv := by
    simp only [msWalk]
    rw [if_neg (by simp [hcmp, hidx]), if_pos ⟨hcmp, hidx⟩]
  have hlen : intlen mapOv.literal_key = 1025 := intlen_replicate 1025
  unfold kui_ms_update_state
  rw [if_neg (by omega), if_neg (by norm_num)]
  have hms : msOvSL.map_state = .KUI_MAP_STILL_LOOKING := rfl
  rw [if_neg (by simp [hms])]
  show (match msWalk mapOv.literal_key 97 p.toNat ([mapOv].drop 0) 0 with
    | .notFound i => Except.ok { msOvSL with map_iter := i, map_state := .KUI_MAP_NOT_FOUND }
    | .atEnd i => Except.ok { msOvSL with map_iter := i, map_state := .KUI_MAP_NOT_FOUND }
    | .survive i m =>
      if intlen m.literal_key ≠ p.toNat + 1 then Except.ok { msOvSL with map_iter := i }
      else
        let ms' := { msOvSL with map_iter := i, is_found := true, map_iter_found := some i }
        match [mapOv].get? (i + 1) with
        | none => Except.ok { ms' with map_state := .KUI_MAP_FOUND }
        | some nextMap =>
          if intncmp nextMap.literal_key m.literal_key (p.toNat + 1) ≠ 0 then
            Except.ok { ms' with map_state := .KUI_MAP_FOUND }
          else Except.ok ms') = Except.ok msOvFound
  rw [List.drop_zero, hwalk]
  have hc2 : intlen mapOv.literal_key = p ⊔ 0 + 1 := by
    rw [hlen, sup_eq_left.mpr h0]
    omega
  simp [hc2]
  rfl

/-- One unfolding of the read loop at positive fuel, with the pair
returned by `kui_findchar` accessed through projections. -/
theorem kui_findkeyLoop_succ (fuel : Nat) (ctx : Kuictx) (bufmax : Nat → Int)
    (position : Int) :
    kui_findkeyLoop (fuel + 1) ctx bufmax position =
      (if (kui_findchar ctx).1 = 0 then .ok ((kui_findchar ctx).2, bufmax, position)
       else
         match kui_update_each_list (kui_findchar ctx).2.kui_map_set_list
             (kui_findchar ctx).1 (position + 1) with
         | .error e => .error e
         | .ok sets =>
           if kui_should_continue_looking sets then
             kui_findkeyLoop fuel { (kui_findchar ctx).2 with kui_map_set_list := sets }
               (fun n => if n = (position + 1).toNat then (kui_findchar ctx).1 else bufmax n)
               (position + 1)
           else .ok ({ (kui_findchar ctx).2 with kui_map_set_list := sets },
               fun n => if n = (position + 1).toNat then (kui_findchar ctx).1 else bufmax n,
               position + 1)) := rfl

/-- Reading from the overflow context with `r + 1` source tokens left
yields the token `97` and the context with `r` tokens left. -/
theorem kui_findchar_overflow (r : Nat) :
    kui_findchar (ctxOvMid (r + 1)) = (97, ctxOvMid r) := by
  simp [kui_findchar, ctxOvMid, List.replicate_succ]

/-- Feeding one key to a one-set list whose set is not NOT_FOUND applies
the update to that set. -/
theorem kui_update_each_list_singleton (ms ms' : KuiMapSet) (key position : Int)
    (hnf : ms.map_state ≠ KuiMapState.KUI_MAP_NOT_FOUND)
    (h : kui_ms_update_state ms key position = .ok ms') :
    kui_update_each_list [ms] key position = .ok [ms'] := by
  simp only [kui_update_each_list, if_pos hnf, h]

/-- The read loop of the overflow pass, parametrized by the number of
source tokens left minus one (`k`): it runs to the end of the source and
stops with the map found at position 1024, having written `bufmax[1024]`. -/
theorem kui_findkeyLoop_overflow : ∀ (k : Nat), k ≤ 1024 → ∀ (b : Nat → Int) (q : Int),
    q + k = 1023 → -1 ≤ q →
    ∃ b', kui_findkeyLoop (k + 2) (ctxOvMid (k + 1)) b q = .ok (ctxOvEnd, b', 1024) := by
  intro k
  induction k with
  | zero =>
    intro _ b q hq _
    have hq' : q = 1023 := by omega
    subst hq'
    refine ⟨fun n => if n = ((1023 : Int) + 1).toNat then 97 else b n, ?_⟩
    show kui_findkeyLoop (1 + 1) (ctxOvMid (0 + 1)) b 1023 = _
    rw [kui_findkeyLoop_succ, kui_findchar_overflow 0]
    have hnf : msOvSL.map_state ≠ KuiMapState.KUI_MAP_NOT_FOUND := by
      simp [msOvSL, freshSet]
    have h := msOvSL_update_last (1023 + 1) (by omega) (by decide)
    have hupd : kui_update_each_list ((97 : Int), ctxOvMid 0).2.kui_map_set_list
        ((97 : Int), ctxOvMid 0).1 ((1023 : Int) + 1) = .ok [msOvFound] :=
      kui_update_each_list_singleton msOvSL msOvFound 97 (1023 + 1) hnf h
    rw [hupd]
    rfl
  | succ k ih =>
    intro hk b q hq hq'
    obtain ⟨b', hb⟩ := ih (by omega)
      (fun n => if n = (q + 1).toNat then ((97 : Int), ctxOvMid (k + 1)).1 else b n)
      (q + 1) (by omega) (by omega)
    refine ⟨b', ?_⟩
    show kui_findkeyLoop ((k + 2) + 1) (ctxOvMid ((k + 1) + 1)) b q = _
    rw [kui_findkeyLoop_succ, kui_findchar_overflow (k + 1)]
    have hnf : msOvSL.map_state ≠ KuiMapState.KUI_MAP_NOT_FOUND := by
      simp [msOvSL, freshSet]
    have h := msOvSL_update_mid (q + 1) (by omega) (by omega)
    have hupd : kui_update_each_list ((97 : Int), ctxOvMid (k + 1)).2.kui_map_set_list
        ((97 : Int), ctxOvMid (k + 1)).1 (q + 1) = .ok [msOvSL] :=
      kui_update_each_list_singleton msOvSL msOvSL 97 (q + 1) hnf h
    rw [hupd]
    exact hb

/-- Unfolding of `kui_update_buffer` in the map-found case. -/
theorem kui_update_buffer_found (ctx : Kuictx) (m : KuiMap) (position : Int)
    (bufmax : Nat → Int) :
    kui_update_buffer ctx (some m) position bufmax =
      ({ ctx with buffer := (prependValueLoop m.literal_value
          (prependLoop bufmax (intlen m.literal_key) position ctx.buffer)) }, 0) := rfl

/-- The result of `kui_findkey` as determined by its read loop: finalize
the map sets, pick the winning map, reconstitute the buffer. -/
theorem kui_findkey_of_loop (ctx0 : Kuictx) (b0 b1 : Nat → Int) (ctx1 : Kuictx)
    (position : Int)
    (h : kui_findkeyLoop (ctx0.buffer.length + ctx0.source.length + 1)
        { ctx0 with kui_map_set_list := ctx0.kui_map_set_list.map kui_ms_reset_state }
        b0 (-1) = .ok (ctx1, b1, position)) :
    kui_findkey ctx0 b0 =
      (let ctx2 := { ctx1 with
        kui_map_set_list := ctx1.kui_map_set_list.map kui_ms_finalize_state }
       match kui_was_map_found ctx2.kui_map_set_list with
       | .error e => .error e
       | .ok the_map_found =>
         let p := kui_update_buffer ctx2 the_map_found position b1
         .ok (p.2, the_map_found.isSome, position, p.1)) := by
  unfold kui_findkey
  simp only []
  rw [h]

set_option maxRecDepth 16384 in
/-- C3 evaluation: for the single registered map with a 1025-token key and
a source supplying its 1025 tokens, the pass runs to `position = 1024` and
returns success: the loop performed the write `bufmax[position] = key` at
index 1024, one past the last valid index (1023) of the 1024-element stack
array, with no bounds check and no error — the claimed hard fault never
happens. -/
theorem kui_findkey_pass_exceeds_bufmax_bound (b : Nat → Int) :
    kui_findkey kuiCtxOverflow b = .ok (0, true, 1024, ctxOvAfter) := by
  obtain ⟨b', hb⟩ := kui_findkeyLoop_overflow 1024 (by norm_num) b (-1)
    (by norm_num) (by norm_num)
  have hlen : kuiCtxOverflow.buffer.length + kuiCtxOverflow.source.length + 1
      = 1024 + 2 := by
    show ([] : List Int).length + (List.replicate 1025 (97 : Int)).length + 1 = 1024 + 2
    rw [List.length_replicate]
    rfl
  have hreset : { kuiCtxOverflow with
      kui_map_set_list := kuiCtxOverflow.kui_map_set_list.map kui_ms_reset_state }
      = ctxOvMid (1024 + 1) := rfl
  have h := kui_findkey_of_loop kuiCtxOverflow b b' ctxOvEnd 1024
    (by rw [hlen, hreset]; exact hb)
  rw [h]
  have hfin : ctxOvEnd.kui_map_set_list.map kui_ms_finalize_state = [msOvFound] := rfl
  have hwas : kui_was_map_found [msOvFound] = .ok (some mapOv) := rfl
  have hk : intlen mapOv.literal_key = 1025 := intlen_replicate 1025
  have hbuf : kui_update_buffer
      { ctxOvEnd with kui_map_set_list := [msOvFound] } (some mapOv) 1024 b'
      = (ctxOvAfter, 0) := by
    rw [kui_update_buffer_found, hk]
    rfl
  simp only [hfin, hwas, hbuf]
  rfl

/-- A successful `kui_ms_update_state` never yields the ERROR state: every
branch writes STILL_LOOKING, NOT_FOUND or FOUND, or keeps the
STILL_LOOKING the guard required. -/
theorem kui_ms_update_state_not_error (s : KuiMapSet) (k p : Int) (s' : KuiMapSet)
    (h : kui_ms_update_state s k p = .ok s') :
    s'.map_state ≠ .KUI_MAP_ERROR := by
  unfold kui_ms_update_state at h
  simp only [] at h
  repeat' split at h
  all_goals first
    | (injection h with h'
       rw [← h']
       simp_all)
    | injection h

/-- Running any update sequence preserves freedom from the ERROR state:
successful calls land in one of the three real states, failing calls
(C `-1`) leave the set untouched. -/
theorem msRunUpdates_not_error : ∀ (steps : List (Int × Int)) (s : KuiMapSet),
    s.map_state ≠ .KUI_MAP_ERROR → (msRunUpdates s steps).map_state ≠ .KUI_MAP_ERROR := by
  intro steps
  induction steps with
  | nil => intro s h; exact h
  | cons kp rest ih =>
    intro s h
    show (msRunUpdates
      (match kui_ms_update_state s kp.1 kp.2 with
       | .ok s' => s'
       | .error _ => s) rest).map_state ≠ .KUI_MAP_ERROR
    cases hstep : kui_ms_update_state s kp.1 kp.2 with
    | ok s' => exact ih s' (kui_ms_update_state_not_error s kp.1 kp.2 s' hstep)
    | error e => exact ih s h

/-- Finalize preserves freedom from the ERROR state. -/
theorem kui_ms_finalize_state_not_error (s : KuiMapSet)
    (h : s.map_state ≠ .KUI_MAP_ERROR) :
    (kui_ms_finalize_state s).map_state ≠ .KUI_MAP_ERROR := by
  unfold kui_ms_finalize_state
  split
  · simp
  · exact h

/-- C5 as amended: after any sequence of `update` calls from the reset
state followed by `finalize`, the state is FOUND, NOT_FOUND or
STILL_LOOKING — the ERROR state is never reached (but STILL_LOOKING does
survive finalize when the scan ended mid-candidate with no latched
match, so the original claim's two-state range is too narrow). -/
theorem msRunFinalize_not_error (ms : KuiMapSet) (steps : List (Int × Int)) :
    (kui_ms_finalize_state (msRunUpdates (kui_ms_reset_state ms) steps)).map_state
      = .KUI_MAP_FOUND ∨
    (kui_ms_finalize_state (msRunUpdates (kui_ms_reset_state ms) steps)).map_state
      = .KUI_MAP_NOT_FOUND ∨
    (kui_ms_finalize_state (msRunUpdates (kui_ms_reset_state ms) steps)).map_state
      = .KUI_MAP_STILL_LOOKING := by
  have h0 : (kui_ms_reset_state ms).map_state ≠ .KUI_MAP_ERROR := by
    simp [kui_ms_reset_state]
  have h := kui_ms_finalize_state_not_error _ (msRunUpdates_not_error steps _ h0)
  cases hs : (kui_ms_finalize_state (msRunUpdates (kui_ms_reset_state ms) steps)).map_state
  · exact Or.inl rfl
  · exact Or.inr (Or.inr rfl)
  · exact Or.inr (Or.inl rfl)
  · exact absurd hs h

/-- The candidate walk of the code and the four-step walk of the spec
coincide: the code's combined break condition is precisely rules 1 and 2,
its survival test rule 3, and its fall-through rule 4. -/
theorem msWalk_eq_specWalk (anchor : List Int) (key : Int) (pos : Nat) :
    ∀ (l : List KuiMap) (i : Nat),
      msWalk anchor key pos l i = specWalk anchor key pos l i := by
  intro l
  induction l with
  | nil => intro i; rfl
  | cons m rest ih =>
    intro i
    by_cases hr : intncmp anchor m.literal_key pos = 0
    · by_cases hgt : idx m.literal_key pos > key
      · simp [msWalk, specWalk, hr, hgt]
      · by_cases heq : idx m.literal_key pos = key
        · simp [msWalk, specWalk, hr, hgt, heq]
        · simp [msWalk, specWalk, hr, hgt, heq, ih]
    · simp [msWalk, specWalk, hr]

/-- C1: for every map set whose map list is sorted by literal key and
whose state is STILL_LOOKING, with a valid cursor and a positive token,
`kui_ms_update_state` succeeds and computes exactly the update the spec's
four-step rule prescribes — walking the cursor, declaring NOT_FOUND on a
lost prefix, a greater candidate token or an exhausted list, surviving on
an equal token, skipping on a smaller one, latching `is_found` and
`found_cursor` exactly when the survivor's key length is `position + 1`,
and promoting to FOUND exactly when no following candidate shares the
full `(position + 1)`-prefix. -/
theorem kui_ms_update_state_follows_spec (ms : KuiMapSet) (key : Int) (position : Nat)
    (hsorted : msSorted ms.map_list)
    (hstate : ms.map_state = .KUI_MAP_STILL_LOOKING)
    (hcursor : ms.map_iter < ms.map_list.length)
    (hkey : 0 < key) :
    kui_ms_update_state ms key (position : Int) = .ok (updateSpec ms key position) := by
  obtain ⟨anchorMap, hget⟩ : ∃ a, ms.map_list.get? ms.map_iter = some a :=
    ⟨ms.map_list.get ⟨ms.map_iter, hcursor⟩, List.get?_eq_get hcursor⟩
  unfold kui_ms_update_state updateSpec
  rw [if_neg (by omega), if_neg (by omega), if_neg (by simp [hstate]), hget]
  simp only [msWalk_eq_specWalk]
  have hpos : ((position : Int)).toNat = position := by omega
  rw [hpos]
  cases hw : specWalk anchorMap.literal_key key position
      (ms.map_list.drop ms.map_iter) ms.map_iter with
  | notFound c => rfl
  | atEnd c => rfl
  | survive c C =>
    by_cases hlen : intlen C.literal_key = (position : Int) + 1
    · cases hnext : ms.map_list.get? (c + 1) with
      | none =>
        rw [List.get?_eq_getElem?] at hnext
        simp [hlen, hnext]
      | some nextMap =>
        rw [List.get?_eq_getElem?] at hnext
        by_cases hc : intncmp nextMap.literal_key C.literal_key (position + 1) = 0
        · simp [hlen, hnext, hc]
        · simp [hlen, hnext, hc]
    · simp [hlen]

/-- A buffer slice one longer extends on the right. -/
theorem bufSlice_concat (bufmax : Nat → Int) : ∀ (n lo : Nat),
    bufSlice bufmax lo (n + 1) = bufSlice bufmax lo n ++ [bufmax (lo + n)] := by
  intro n
  induction n with
  | zero => intro lo; simp [bufSlice]
  | succ n ih =>
    intro lo
    have hadd : lo + 1 + n = lo + (n + 1) := by omega
    show bufmax lo :: bufSlice bufmax (lo + 1) (n + 1)
      = (bufmax lo :: bufSlice bufmax (lo + 1) n) ++ [bufmax (lo + (n + 1))]
    rw [ih (lo + 1), hadd]
    simp

/-- The push-back loop prepends exactly the slice `bufmax[j+1-n .. j]`
in original order. -/
theorem prependLoopN_eq_bufSlice (bufmax : Nat → Int) : ∀ (n : Nat) (j : Int)
    (buffer : List Int), (n : Int) ≤ j + 1 → 0 ≤ j + 1 →
    prependLoopN bufmax n j buffer = bufSlice bufmax (j + 1 - n).toNat n ++ buffer := by
  intro n
  induction n with
  | zero => intro j buffer _ _; simp [prependLoopN, bufSlice]
  | succ n ih =>
    intro j buffer h1 h2
    show prependLoopN bufmax n (j - 1) (bufmax j.toNat :: buffer) = _
    rw [ih (j - 1) (bufmax j.toNat :: buffer) (by omega) (by omega)]
    have hs : ((j - 1) + 1 - (n : Int)).toNat = (j + 1 - ((n : Nat) + 1 : Nat)).toNat := by
      omega
    rw [hs, bufSlice_concat]
    have ha : (j + 1 - ((n : Nat) + 1 : Nat)).toNat + n = j.toNat := by omega
    rw [ha]
    simp

/-- C8: a pass that consumed at least one token (`position ≥ 0`) and found
no map returns exactly the first consumed token `bufmax[0]`, and prepends
the remaining consumed tokens `bufmax[1 ..= position]` to the pushback
buffer in their original order. -/
theorem kui_update_buffer_no_match_pushback (ctx : Kuictx) (bufmax : Nat → Int)
    (position : Int) (h : 0 ≤ position) :
    kui_update_buffer ctx none position bufmax =
      ({ ctx with buffer := bufSlice bufmax 1 position.toNat ++ ctx.buffer }, bufmax 0) := by
  show ({ ctx with buffer := prependLoop bufmax 1 position ctx.buffer }, bufmax 0) = _
  unfold prependLoop
  rw [prependLoopN_eq_bufSlice bufmax (position + 1 - 1).toNat position ctx.buffer
    (by omega) (by omega)]
  have h2 : (position + 1 - 1).toNat = position.toNat := by omega
  rw [h2]
  have h3 : (position + 1 - (position.toNat : Int)).toNat = 1 := by omega
  rw [h3]

/-- Witness for the pushback contract at `position = 2` with a concrete
buffer content. -/
theorem kui_update_buffer_no_match_pushback_witness :
    0 ≤ (2 : Int) ∧ kui_update_buffer kuiCtxW none 2 bufW =
      ({ kuiCtxW with buffer := bufSlice bufW 1 (2 : Int).toNat ++ kuiCtxW.buffer }, bufW 0) :=
  ⟨by decide, kui_update_buffer_no_match_pushback kuiCtxW bufW 2 (by decide)⟩

/-- Witness for the update-follows-spec theorem on the scenario map set at
token `a` (97) and position 0. -/
theorem kui_ms_update_state_follows_spec_witness :
    msSorted kuiMsScenario.map_list ∧
    kuiMsScenario.map_state = .KUI_MAP_STILL_LOOKING ∧
    kuiMsScenario.map_iter < kuiMsScenario.map_list.length ∧
    (0 : Int) < 97 ∧
    kui_ms_update_state kuiMsScenario 97 ((0 : Nat) : Int)
      = .ok (updateSpec kuiMsScenario 97 0) :=
  ⟨by decide, rfl, by decide, by decide,
    kui_ms_update_state_follows_spec kuiMsScenario 97 0 (by decide) rfl
      (by decide) (by decide)⟩
